import Mathlib

/-!
Verification of the LearnableParameter lifecycle of
Source/ComputationNetworkLib/InputAndParamNodes.cpp: deferred
initialization, shape inference (from loaded data and from a peer shape)
and the versioned persistence codec. Machine scalars (ElemType) are
modelled as rationals; random buffer fills are recorded symbolically
(seed, scale, cpuOnly) since the numeric draw is an external collaborator.
-/

namespace CNTK

/-- Error kinds raised by the code via the Basics.h macros
InvalidArgument, RuntimeError, LogicError; unsupportedFeature is included
so that statements can speak about that error kind as well. -/
inductive Err where
  | invalidArgument (msg : String)
  | runtimeError (msg : String)
  | logicError (msg : String)
  | unsupportedFeature (msg : String)
deriving DecidableEq

/-- The values the m_initString marker can hold after construction:
empty (no pending init) or one of the deferred strategy tags. -/
inductive InitString where
  | empty
  | fromValue
  | uniform
  | gaussian
deriving DecidableEq

/-- Symbolic content of the Value() matrix.  Random fills record the
parameters of the draw rather than the drawn numbers, since the RNG is an
external collaborator of this core. -/
inductive BufferContent where
  | invalid
  | filledValue (v : Rat)
  | filledUniform (seed : Nat) (scale : Rat) (cpuOnly : Bool)
  | filledGaussian (seed : Nat) (scale : Rat) (cpuOnly : Bool)
  | filledData (data : List Rat)
deriving DecidableEq

/-- The 2-D column-major Value() matrix: its dimensions and content. -/
structure MatrixBuf where
  rows : Nat
  cols : Nat
  content : BufferContent
deriving DecidableEq

/-- State of one LearnableParameter node: sample layout (list of
dimension sizes, 0 meaning unknown), learning-rate multiplier, Value()
matrix, and the deferred-initialization fields m_initString, m_randomSeed,
m_initValueScale, m_initOnCPUOnly, m_initValue. -/
structure ParamState where
  dims : List Nat
  learningRateMultiplier : Rat
  value : MatrixBuf
  initString : InitString
  randomSeed : Nat
  initValueScale : Rat
  initOnCPUOnly : Bool
  initValue : Rat
deriving DecidableEq

/-- TensorShape::GetNumElements: product of the dimensions (1 for an
empty shape, 0 as soon as any dimension is 0). -/
def GetNumElements (dims : List Nat) : Nat := dims.prod

/-- Modelled from the spec: the buffer is a 2-D store sized to the
flattened (rows, cols) view of the shape (all dimensions but the last
flattened into rows, the last one as columns; a rank-1 shape is a column
vector).  The concrete split is in ComputationNode.h, not in src/. -/
def matrixDimsOf (ds : List Nat) : Nat × Nat :=
  match ds with
  | [] => (0, 0)
  | [d] => (d, 1)
  | _ => (ds.dropLast.prod, ds.getLastD 1)

def tooManyMsg : String := "specified shape cannot be inferred: Too many unknown dimensions."

def cannotHoldMsg : String := "specified shape cannot be inferred: Tensor shape cannot hold the matrix."

def dataSizeMsg : String := "VerifyDataSize: data size mismatch between Value matrix and sample layout."

def saveMsg : String := "LearnableParameter: Cannot Save before deferred initialization has completed."

def inferPendingMsg : String := "InferInputDimsFrom: Attempted to infer dimensions, with initialization completed or no deferred initialization pending."

def badInitMsg : String := "init must be one of the values of [ uniform | gaussian | fixedValue | fromFile ]"

/-- InitShape: SetDims to the given shape and reallocate/invalidate the
Value matrix (UpdateFunctionValuesSize + Value().Invalidate()). -/
def InitShape (s : ParamState) (shape : List Nat) : ParamState :=
  { s with dims := shape
           value := { rows := (matrixDimsOf shape).1
                      cols := (matrixDimsOf shape).2
                      content := BufferContent.invalid } }

/-- LazyInitParameters: no-op when no init is pending or when the shape is
not yet fully known; otherwise fill the buffer per the pending strategy
and clear m_initString. -/
def LazyInitParameters (s : ParamState) : ParamState :=
  if s.initString = InitString.empty then s
  else if GetNumElements s.dims = 0 then s
  else
    match s.initString with
    | InitString.empty => s
    | InitString.fromValue =>
        { s with value := { s.value with content := BufferContent.filledValue s.initValue }
                 initString := InitString.empty }
    | InitString.uniform =>
        { s with value := { s.value with
                              content := BufferContent.filledUniform s.randomSeed s.initValueScale s.initOnCPUOnly }
                 initString := InitString.empty }
    | InitString.gaussian =>
        { s with value := { s.value with
                              content := BufferContent.filledGaussian s.randomSeed s.initValueScale s.initOnCPUOnly }
                 initString := InitString.empty }

/-- The loop of InitFromArray over the dimensions after the first
(index k starting at 1): multiply the known (nonzero) dimensions into
prod, remember the first zero position in zeroDim, and fail when a second
zero position is met. -/
def tailScan : List Nat → Nat → Nat → Option Nat → Except Err (Nat × Option Nat)
  | [], _, prod, zeroDim => Except.ok (prod, zeroDim)
  | d :: rest, k, prod, zeroDim =>
      if d ≠ 0 then tailScan rest (k + 1) (prod * d) zeroDim
      else
        match zeroDim with
        | none => tailScan rest (k + 1) prod (some k)
        | some _ => Except.error (Err.invalidArgument tooManyMsg)

/-- The shape-inference part of InitFromArray (the body of its
GetNumElements()==0 branch): extend an empty shape to rank 1, promote a
rank-1 shape to rank 2 when numCols is not 1, set an unset first
dimension to numRows, and solve a single unset tail dimension so that the
product of the tail dimensions equals numCols. -/
def inferShapeFromData (dims0 : List Nat) (numRows numCols : Nat) : Except Err (List Nat) :=
  let dims1 := if dims0.length = 0 then dims0 ++ [0] else dims0
  let dims2 := if dims1.length = 1 ∧ numCols ≠ 1 then dims1 ++ [0] else dims1
  let dims3 :=
    match dims2 with
    | [] => []
    | d0 :: rest => (if d0 = 0 then numRows else d0) :: rest
  match tailScan (dims3.drop 1) 1 1 none with
  | Except.error e => Except.error e
  | Except.ok (_, none) => Except.ok dims3
  | Except.ok (prod, some k) =>
      let v := numCols / prod
      if prod * v ≠ numCols then Except.error (Err.invalidArgument cannotHoldMsg)
      else Except.ok (dims3.set k v)

/-- Modelled from the spec: VerifyDataSize (declared in ComputationNode.h,
not in src/) re-validates buffer size against the shape; a mismatch is an
internal data-size-mismatch condition. -/
def VerifyDataSize (s : ParamState) : Except Err ParamState :=
  if s.value.rows * s.value.cols = GetNumElements s.dims then Except.ok s
  else Except.error (Err.logicError dataSizeMsg)

/-- InitFromArray: infer unknown dimensions from the loaded numRows by
numCols matrix when the current shape has zero total elements, then set
the Value matrix from the data and run the size-consistency check. -/
def InitFromArray (s : ParamState) (data : List Rat) (numRows numCols : Nat) :
    Except Err ParamState :=
  match (if GetNumElements s.dims = 0
         then inferShapeFromData s.dims numRows numCols
         else Except.ok s.dims) with
  | Except.error e => Except.error e
  | Except.ok ds =>
      VerifyDataSize
        { s with dims := ds
                 value := { rows := numRows, cols := numCols
                            content := BufferContent.filledData data } }

/-- The positional-copy loop of InferInputDimsFrom: each zero dimension is
replaced by the peer dimension at the same index. -/
def fillZeroDims : List Nat → List Nat → List Nat
  | [], _ => []
  | d :: ds, [] => d :: fillZeroDims ds []
  | d :: ds, o :: os => (if d = 0 then o else d) :: fillZeroDims ds os

/-- InferInputDimsFrom: back out when this shape is complete or the peer
shape is unusable; require a pending deferred initialization; adopt the
peer shape wholesale when no dimension is set at all; back out on a rank
mismatch; otherwise fill the zero dimensions positionally from the peer
and attempt the pending initialization. -/
def InferInputDimsFrom (s : ParamState) (otherShape : List Nat) : Except Err ParamState :=
  let hasMissingDims := s.dims.length = 0 ∨ GetNumElements s.dims = 0
  if ¬ hasMissingDims then Except.ok s
  else if otherShape.length = 0 ∨ GetNumElements otherShape = 0 then Except.ok s
  else if s.initString = InitString.empty then
    Except.error (Err.logicError inferPendingMsg)
  else
    let hasAnyDim := s.dims.any (fun d => d ≠ 0)
    if ¬ hasAnyDim then
      Except.ok (LazyInitParameters (InitShape s otherShape))
    else if s.dims.length ≠ 0 ∧ s.dims.length ≠ otherShape.length then
      Except.ok s
    else
      Except.ok (LazyInitParameters (InitShape s (fillZeroDims s.dims otherShape)))

/-- The initValue config entry as seen by the constructor: an empty or
non-empty string, a double scalar, a config array, or a value of some
other type. -/
inductive InitValueArg where
  | str (s : String)
  | scalar (v : Rat)
  | array
  | other
deriving DecidableEq

/-- The configuration record consumed by the constructor.  File loads and
literal-array parses are external collaborators; their results (row
count, column count, flat data) are carried as fields, with none
modelling a failing load/parse. -/
structure Config where
  shape : List Nat
  learningRateMultiplier : Option Rat
  hasDeprecatedGradientFlag : Bool
  init : String
  initFromFilePath : String
  initValue : InitValueArg
  randomSeed : Int
  initValueScale : Rat
  initOnCPUOnly : Bool
  value : Rat
  initFromLiteral : String
  fileData : Option (Nat × Nat × List Rat)
  literalParse : Option (Nat × Nat × List Rat)
deriving DecidableEq

def valueNotNumericalMsg : String := "initValue must be numerical"

def valueNotEmptyStringMsg : String := "LearnableParameter: initValue must be an empty string or not a string."

def valueArrayMsg : String := "initValue for arrays not yet implemented"

def needFilePathMsg : String := "initFromFilePath parameter must be provided when using fromFile initialization method"

def needLiteralMsg : String := "initFromLiteral parameter must be provided when using fromLiteral initialization method"

def fileLoadFailedMsg : String := "failed to load the matrix from the text file"

def literalParseFailedMsg : String := "failed to parse the literal array string"

def deprecatedGradientMsg : String := "Deprecated parameter names needsGradient|needGradient|computeGradient are not supported in BrainScript. Use learningRateMultiplier instead."

def scalarCastMsg : String := "initValue cannot be converted to a scalar"

/-- Resolution of the strategy token when the named init token is empty:
a non-empty file path selects fromFile; a non-string initValue selects
fromValue (double) or fromValueArray (array) or fails; a non-empty string
initValue fails; otherwise default to uniform. -/
def resolveInitString (c : Config) : Except Err String :=
  if c.init ≠ "" then Except.ok c.init
  else if c.initFromFilePath ≠ "" then Except.ok "fromFile"
  else
    match c.initValue with
    | InitValueArg.scalar _ => Except.ok "fromValue"
    | InitValueArg.array => Except.ok "fromValueArray"
    | InitValueArg.other => Except.error (Err.invalidArgument valueNotNumericalMsg)
    | InitValueArg.str m =>
        if m ≠ "" then Except.error (Err.invalidArgument valueNotEmptyStringMsg)
        else Except.ok "uniform"

/-- Conversion of the initValue config entry to an ElemType scalar. -/
def getScalar : InitValueArg → Except Err Rat
  | InitValueArg.scalar v => Except.ok v
  | _ => Except.error (Err.invalidArgument scalarCastMsg)

/-- Modelled from the spec: the delegated base constructor (declared in
InputAndParamNodes.h, not in src/) binds the configured shape, enables
learning with multiplier 1 by default and allocates the Value matrix for
the shape. -/
def baseConstruct (c : Config) : ParamState :=
  { dims := c.shape
    learningRateMultiplier := 1
    value := { rows := (matrixDimsOf c.shape).1
               cols := (matrixDimsOf c.shape).2
               content := BufferContent.invalid }
    initString := InitString.empty
    randomSeed := 0
    initValueScale := 1
    initOnCPUOnly := false
    initValue := 0 }

/-- The learningRateMultiplier handling at the top of the constructor:
an explicit multiplier overrides the default of 1; the deprecated
gradient-flag names are rejected. -/
def lrStep (c : Config) : Except Err ParamState :=
  match c.learningRateMultiplier with
  | some v => Except.ok { baseConstruct c with learningRateMultiplier := v }
  | none =>
      if c.hasDeprecatedGradientFlag then
        Except.error (Err.invalidArgument deprecatedGradientMsg)
      else Except.ok (baseConstruct c)

/-- The branch chain of the config constructor, before the final
LazyInitParameters call.  Returns the node state together with the
updated process-wide seed counter (the static randomSeed variable, whose
current value is passed in as seedCounter). -/
def constructCore (c : Config) (seedCounter : Nat) : Except Err (ParamState × Nat) :=
  match lrStep c with
  | Except.error e => Except.error e
  | Except.ok s0 =>
      match resolveInitString c with
      | Except.error e => Except.error e
      | Except.ok tok =>
          if tok = "uniform" ∨ tok = "gaussian" then
            Except.ok
              ({ s0 with
                   initString := if tok = "uniform" then InitString.uniform
                                 else InitString.gaussian
                   randomSeed := if c.randomSeed < 0 then seedCounter else c.randomSeed.toNat
                   initValueScale := c.initValueScale
                   initOnCPUOnly := c.initOnCPUOnly },
               if c.randomSeed < 0 then seedCounter + 1 else seedCounter)
          else if tok = "zero" then
            Except.ok ({ s0 with initString := InitString.fromValue, initValue := 0 },
                       seedCounter)
          else if tok = "fromValue" then
            match getScalar c.initValue with
            | Except.error e => Except.error e
            | Except.ok v =>
                Except.ok ({ s0 with initString := InitString.fromValue, initValue := v },
                           seedCounter)
          else if tok = "fromValueArray" then
            Except.error (Err.invalidArgument valueArrayMsg)
          else if tok = "fromFile" then
            if c.initFromFilePath = "" then Except.error (Err.runtimeError needFilePathMsg)
            else
              match c.fileData with
              | none => Except.error (Err.runtimeError fileLoadFailedMsg)
              | some (r, cc, data) =>
                  match InitFromArray s0 data r cc with
                  | Except.error e => Except.error e
                  | Except.ok s1 =>
                      Except.ok ({ s1 with initString := InitString.empty }, seedCounter)
          else if tok = "fixedValue" then
            Except.ok ({ s0 with initString := InitString.fromValue, initValue := c.value },
                       seedCounter)
          else if tok = "fromLiteral" then
            if c.initFromLiteral = "" then Except.error (Err.runtimeError needLiteralMsg)
            else
              match c.literalParse with
              | none => Except.error (Err.runtimeError literalParseFailedMsg)
              | some (r, cc, data) =>
                  match InitFromArray s0 data r cc with
                  | Except.error e => Except.error e
                  | Except.ok s1 =>
                      Except.ok ({ s1 with initString := InitString.empty }, seedCounter)
          else Except.error (Err.runtimeError badInitMsg)

/-- The config constructor: the branch chain above followed by the single
LazyInitParameters call at its end. -/
def constructFromConfig (c : Config) (seedCounter : Nat) : Except Err (ParamState × Nat) :=
  match constructCore c seedCounter with
  | Except.error e => Except.error e
  | Except.ok (s1, k2) => Except.ok (LazyInitParameters s1, k2)

/-- Modelled from the spec: the first model version of the current
versioned format (CNTK_MODEL_VERSION_3, declared outside src/); versions
below it use the legacy layout. -/
def CNTK_MODEL_VERSION_3 : Nat := 3

/-- One item of the sequential binary stream: the base-class fields, a
scalar, a boolean, a size, a TensorShape serialization (current or
legacy-tagged encoding), or a serialized Value matrix. -/
inductive StreamItem where
  | baseFields
  | floatVal (v : Rat)
  | boolVal (b : Bool)
  | natVal (n : Nat)
  | shapeVal (dims : List Nat)
  | legacyShapeVal (dims : List Nat)
  | matrixVal (rows cols : Nat) (content : BufferContent)
deriving DecidableEq

def streamMsg : String := "Load: unexpected stream contents"

/-- Save: fail with a LogicError when a deferred initialization is still
pending, else write the base fields, the learning-rate multiplier, the
shape and the Value matrix. -/
def Save (s : ParamState) : Except Err (List StreamItem) :=
  if s.initString ≠ InitString.empty then Except.error (Err.logicError saveMsg)
  else
    Except.ok [StreamItem.baseFields,
               StreamItem.floatVal s.learningRateMultiplier,
               StreamItem.shapeVal s.dims,
               StreamItem.matrixVal s.value.rows s.value.cols s.value.content]

/-- The tail of Load shared by all formats: LoadValue reads the matrix,
SetDims installs the decoded layout afterwards, VerifyDataSize checks
them against each other, and the pending-initialization marker is cleared
unconditionally. -/
def finishLoad (s : ParamState) (lr : Rat) (ds : List Nat) (r c : Nat)
    (buf : BufferContent) : Except Err ParamState :=
  match VerifyDataSize
      { s with learningRateMultiplier := lr
               dims := ds
               value := { rows := r, cols := c, content := buf } } with
  | Except.error e => Except.error e
  | Except.ok s1 => Except.ok { s1 with initString := InitString.empty }

/-- The stream-decoding part of Load: after the base fields, a version at
or above CNTK_MODEL_VERSION_3 reads the multiplier and the shape
serialization; an older version reads the boolean update flag (mapped to
multiplier 1 or 0) and a row and column count, taking them as the 2-D
shape [rows, cols] when the row count is nonzero and otherwise reading a
legacy-tagged shape, appending the column count as a trailing dimension
when it exceeds 1.  Returns the multiplier, the decoded layout and the
Value matrix read by LoadValue. -/
def decodeStream (items : List StreamItem) (modelVersion : Nat) :
    Except Err (Rat × List Nat × Nat × Nat × BufferContent) :=
  match items with
  | StreamItem.baseFields :: rest =>
      if modelVersion ≥ CNTK_MODEL_VERSION_3 then
        match rest with
        | StreamItem.floatVal lr :: StreamItem.shapeVal ds ::
            StreamItem.matrixVal r c buf :: _ =>
            Except.ok (lr, ds, r, c, buf)
        | _ => Except.error (Err.runtimeError streamMsg)
      else
        match rest with
        | StreamItem.boolVal upd :: StreamItem.natVal rows ::
            StreamItem.natVal cols :: rest2 =>
            if rows ≠ 0 then
              match rest2 with
              | StreamItem.matrixVal r c buf :: _ =>
                  Except.ok (if upd then 1 else 0, [rows, cols], r, c, buf)
              | _ => Except.error (Err.runtimeError streamMsg)
            else
              match rest2 with
              | StreamItem.legacyShapeVal ds :: StreamItem.matrixVal r c buf :: _ =>
                  Except.ok (if upd then 1 else 0,
                             if cols > 1 then ds ++ [cols] else ds, r, c, buf)
              | _ => Except.error (Err.runtimeError streamMsg)
        | _ => Except.error (Err.runtimeError streamMsg)
  | _ => Except.error (Err.runtimeError streamMsg)

/-- Load: decode the stream per the model version, then install the
decoded fields (LoadValue, then SetDims, then VerifyDataSize, then clear
the pending-initialization marker). -/
def Load (items : List StreamItem) (modelVersion : Nat) (s : ParamState) :
    Except Err ParamState :=
  match decodeStream items modelVersion with
  | Except.error e => Except.error e
  | Except.ok (lr, ds, r, c, buf) => finishLoad s lr ds r c buf

/-! Helper lemmas about the tail-dimension scan of InitFromArray. -/

theorem tailScan_none_no_zero (ds : List Nat) (k p : Nat) (h : 0 ∉ ds) :
    tailScan ds k p none = Except.ok (p * ds.prod, none) := by
  induction ds generalizing k p with
  | nil => simp [tailScan]
  | cons d rest ih =>
      have hd : d ≠ 0 := fun hc => h (by simp [hc])
      have hr : 0 ∉ rest := fun hc => h (by simp [hc])
      simp [tailScan, hd, ih (k + 1) (p * d) hr, List.prod_cons, mul_assoc]

theorem tailScan_some_no_zero (ds : List Nat) (k p j : Nat) (h : 0 ∉ ds) :
    tailScan ds k p (some j) = Except.ok (p * ds.prod, some j) := by
  induction ds generalizing k p with
  | nil => simp [tailScan]
  | cons d rest ih =>
      have hd : d ≠ 0 := fun hc => h (by simp [hc])
      have hr : 0 ∉ rest := fun hc => h (by simp [hc])
      simp [tailScan, hd, ih (k + 1) (p * d) hr, List.prod_cons, mul_assoc]

theorem tailScan_some_zero (ds : List Nat) (k p j : Nat) (h : 0 ∈ ds) :
    tailScan ds k p (some j) = Except.error (Err.invalidArgument tooManyMsg) := by
  induction ds generalizing k p with
  | nil => simp at h
  | cons d rest ih =>
      by_cases hd : d = 0
      · subst hd; simp [tailScan]
      · have hr : 0 ∈ rest := by
          rcases List.mem_cons.mp h with h0 | h0
          · exact absurd h0.symm hd
          · exact h0
        simp [tailScan, hd, ih (k + 1) (p * d) hr]

theorem tailScan_split (a : List Nat) (b : List Nat) (k p : Nat) (ha : 0 ∉ a) :
    tailScan (a ++ 0 :: b) k p none
      = tailScan b (k + a.length + 1) (p * a.prod) (some (k + a.length)) := by
  induction a generalizing k p with
  | nil => simp [tailScan]
  | cons d rest ih =>
      have hd : d ≠ 0 := fun hc => ha (by simp [hc])
      have hr : 0 ∉ rest := fun hc => ha (by simp [hc])
      simp only [List.cons_append, List.prod_cons, List.length_cons, tailScan, hd,
        ne_eq, not_false_eq_true, if_true, List.append_eq]
      rw [ih (k + 1) (p * d) hr]
      have e1 : k + 1 + rest.length = k + (rest.length + 1) := by omega
      rw [e1, mul_assoc]

theorem tailScan_some_result (ds : List Nat) (k p j : Nat) :
    (∃ q, tailScan ds k p (some j) = Except.ok (q, some j)) ∨
      tailScan ds k p (some j) = Except.error (Err.invalidArgument tooManyMsg) := by
  induction ds generalizing k p with
  | nil => exact Or.inl ⟨p, rfl⟩
  | cons d rest ih =>
      by_cases hd : d = 0
      · subst hd; right; simp [tailScan]
      · simpa [tailScan, hd] using ih (k + 1) (p * d)

theorem tailScan_zero_index_ge (ds : List Nat) :
    ∀ k p q j, tailScan ds k p none = Except.ok (q, some j) → k ≤ j := by
  induction ds with
  | nil => intro k p q j h; simp [tailScan] at h
  | cons d rest ih =>
      intro k p q j h
      by_cases hd : d = 0
      · subst hd
        have hstep : tailScan (0 :: rest) k p none = tailScan rest (k + 1) p (some k) := by
          simp [tailScan]
        rw [hstep] at h
        rcases tailScan_some_result rest (k + 1) p k with ⟨q2, h2⟩ | h2
        · rw [h2] at h
          obtain ⟨-, hkj⟩ : q2 = q ∧ k = j := by simpa using h
          omega
        · rw [h2] at h; cases h
      · simp only [tailScan, hd, ne_eq, not_false_eq_true, if_true] at h
        have := ih (k + 1) (p * d) q j h
        omega

theorem set_after_append (a b : List Nat) (v : Nat) :
    (a ++ 0 :: b).set a.length v = a ++ v :: b := by
  induction a with
  | nil => simp
  | cons d rest ih => simp [ih]

/-- Unfolding of inferShapeFromData for a shape of rank at least 2 (no
rank extension or promotion happens). -/
theorem inferShapeFromData_cons (d0 : Nat) (rest : List Nat) (hrest : rest ≠ [])
    (R C : Nat) :
    inferShapeFromData (d0 :: rest) R C =
      match tailScan rest 1 1 none with
      | Except.error e => Except.error e
      | Except.ok (_, none) => Except.ok ((if d0 = 0 then R else d0) :: rest)
      | Except.ok (prod, some k) =>
          if prod * (C / prod) ≠ C then Except.error (Err.invalidArgument cannotHoldMsg)
          else Except.ok (((if d0 = 0 then R else d0) :: rest).set k (C / prod)) := by
  have h2 : ((d0 :: rest).length = 1 ∧ C ≠ 1) = False := by
    apply eq_false
    rintro ⟨h, -⟩
    rw [List.length_cons] at h
    exact hrest (List.length_eq_zero.mp (by omega))
  have h1 : ((d0 :: rest).length = 0) = False := by simp
  simp only [inferShapeFromData, h1, h2, if_false, List.drop_one, List.tail_cons]

theorem infer_success (d0 : Nat) (a b : List Nat) (R C : Nat)
    (ha : 0 ∉ a) (hb : 0 ∉ b) (hdvd : (a.prod * b.prod) ∣ C) :
    inferShapeFromData (d0 :: (a ++ 0 :: b)) R C
      = Except.ok ((if d0 = 0 then R else d0) :: (a ++ (C / (a.prod * b.prod)) :: b)) := by
  have hne : a ++ 0 :: b ≠ [] := by simp
  rw [inferShapeFromData_cons d0 _ hne R C]
  rw [tailScan_split a b 1 1 ha, tailScan_some_no_zero b _ _ _ hb]
  have hc : a.prod * b.prod * (C / (a.prod * b.prod)) = C := Nat.mul_div_cancel' hdvd
  simp only [one_mul, hc, ne_eq, not_true_eq_false, if_false]
  rw [add_comm 1 a.length, List.set_cons_succ, set_after_append]

theorem infer_not_dvd (d0 : Nat) (a b : List Nat) (R C : Nat)
    (ha : 0 ∉ a) (hb : 0 ∉ b) (hndvd : ¬ (a.prod * b.prod) ∣ C) :
    inferShapeFromData (d0 :: (a ++ 0 :: b)) R C
      = Except.error (Err.invalidArgument cannotHoldMsg) := by
  have hne : a ++ 0 :: b ≠ [] := by simp
  rw [inferShapeFromData_cons d0 _ hne R C]
  rw [tailScan_split a b 1 1 ha, tailScan_some_no_zero b _ _ _ hb]
  have hc : a.prod * b.prod * (C / (a.prod * b.prod)) ≠ C := by
    intro heq
    exact hndvd ⟨C / (a.prod * b.prod), heq.symm⟩
  simp only [one_mul, ne_eq, hc, not_false_eq_true, if_true]

theorem infer_too_many (d0 : Nat) (a b : List Nat) (R C : Nat)
    (ha : 0 ∉ a) (hb : 0 ∈ b) :
    inferShapeFromData (d0 :: (a ++ 0 :: b)) R C
      = Except.error (Err.invalidArgument tooManyMsg) := by
  have hne : a ++ 0 :: b ≠ [] := by simp
  rw [inferShapeFromData_cons d0 _ hne R C]
  rw [tailScan_split a b 1 1 ha, tailScan_some_zero b _ _ _ hb]

theorem infer_head (rest : List Nat) (R C : Nat) (out : List Nat)
    (h : inferShapeFromData (0 :: rest) R C = Except.ok out) : out.head? = some R := by
  rcases rest with _ | ⟨d, rest2⟩
  · by_cases hC : C = 1
    · subst hC
      simp [inferShapeFromData, tailScan] at h
      simp [← h]
    · simp [inferShapeFromData, tailScan, hC, Nat.div_one] at h
      simp [← h]
  · have hne : d :: rest2 ≠ [] := by simp
    rw [inferShapeFromData_cons 0 _ hne R C] at h
    rcases htail : tailScan (d :: rest2) 1 1 none with e | ⟨p, z⟩
    · rw [htail] at h; cases h
    · rw [htail] at h
      rcases z with _ | k
      · simp only [if_pos rfl] at h
        obtain rfl : (R :: d :: rest2) = out := by simpa using h
        rfl
      · have hk : 1 ≤ k := tailScan_zero_index_ge (d :: rest2) 1 1 p k htail
        by_cases hchk : p * (C / p) ≠ C
        · simp only [if_pos hchk, reduceIte] at h
          cases h
        · simp only [hchk, if_false, reduceIte] at h
          obtain ⟨k2, rfl⟩ : ∃ k2, k = k2 + 1 := ⟨k - 1, by omega⟩
          obtain rfl : (R :: d :: rest2).set (k2 + 1) (C / p) = out := by simpa using h
          simp

theorem initFromArray_known_dims (s : ParamState) (data : List Rat) (R C : Nat)
    (h : GetNumElements s.dims ≠ 0) (out : ParamState)
    (hok : InitFromArray s data R C = Except.ok out) : out.dims = s.dims := by
  rw [InitFromArray, if_neg h] at hok
  simp only [VerifyDataSize] at hok
  split at hok
  · obtain rfl : _ = out := by simpa using hok
    rfl
  · cases hok

theorem initFromArray_inferred_dims (s : ParamState) (data : List Rat) (R C : Nat)
    (h : GetNumElements s.dims = 0) (ds : List Nat)
    (hinf : inferShapeFromData s.dims R C = Except.ok ds) (out : ParamState)
    (hok : InitFromArray s data R C = Except.ok out) : out.dims = ds := by
  rw [InitFromArray, if_pos h, hinf] at hok
  simp only [VerifyDataSize] at hok
  split at hok
  · obtain rfl : _ = out := by simpa using hok
    rfl
  · cases hok

/-- C1: in InitFromArray, when the current shape has zero total elements,
an empty shape is first extended to rank 1, a rank-1 shape is promoted to
rank 2 when the loaded column count is not 1, an unset first dimension
becomes the loaded row count, and a single unset dimension among the
dimensions after the first is solved as the column count divided by the
product of the known tail dimensions, failing with InvalidArgument when
the division is not exact or when more than one tail dimension is unset;
for rows 4, cols 6 and shape [0,0,3] the resolved shape is [4,2,3], and
for shape [0,0,0,3] inference fails with the too-many-unknown-dimensions
error; when the shape has nonzero total elements it is left unchanged. -/
theorem initFromArray_shape_inference :
    (∀ R C, inferShapeFromData [] R C = inferShapeFromData [0] R C)
    ∧ (∀ d R C, C ≠ 1 → inferShapeFromData [d] R C = inferShapeFromData [d, 0] R C)
    ∧ (∀ rest R C out, inferShapeFromData (0 :: rest) R C = Except.ok out →
         out.head? = some R)
    ∧ (∀ d0 a b R C, 0 ∉ a → 0 ∉ b → (a.prod * b.prod) ∣ C →
         inferShapeFromData (d0 :: (a ++ 0 :: b)) R C
           = Except.ok ((if d0 = 0 then R else d0) :: (a ++ (C / (a.prod * b.prod)) :: b)))
    ∧ (∀ d0 a b R C, 0 ∉ a → 0 ∉ b → ¬ (a.prod * b.prod) ∣ C →
         inferShapeFromData (d0 :: (a ++ 0 :: b)) R C
           = Except.error (Err.invalidArgument cannotHoldMsg))
    ∧ (∀ d0 a b R C, 0 ∉ a → 0 ∈ b →
         inferShapeFromData (d0 :: (a ++ 0 :: b)) R C
           = Except.error (Err.invalidArgument tooManyMsg))
    ∧ (∀ s data R C out, GetNumElements s.dims = 0 → ∀ ds,
         inferShapeFromData s.dims R C = Except.ok ds →
         InitFromArray s data R C = Except.ok out → out.dims = ds)
    ∧ (∀ s data R C out, GetNumElements s.dims ≠ 0 →
         InitFromArray s data R C = Except.ok out → out.dims = s.dims)
    ∧ inferShapeFromData [0, 0, 3] 4 6 = Except.ok [4, 2, 3]
    ∧ inferShapeFromData [0, 0, 0, 3] 4 6 = Except.error (Err.invalidArgument tooManyMsg) := by
  refine ⟨?_, ?_, ?_, ?_, ?_, ?_, ?_, ?_, ?_, ?_⟩
  · intro R C
    rfl
  · intro d R C hC
    simp [inferShapeFromData, hC]
  · intro rest R C out h
    exact infer_head rest R C out h
  · intro d0 a b R C ha hb hdvd
    exact infer_success d0 a b R C ha hb hdvd
  · intro d0 a b R C ha hb hndvd
    exact infer_not_dvd d0 a b R C ha hb hndvd
  · intro d0 a b R C ha hb
    exact infer_too_many d0 a b R C ha hb
  · intro s data R C out h ds hinf hok
    exact initFromArray_inferred_dims s data R C h ds hinf out hok
  · intro s data R C out h hok
    exact initFromArray_known_dims s data R C h out hok
  · rfl
  · rfl

/-- Witness for C1: the hypotheses hold at concrete inputs (shape [7]
with 6 columns for the promotion clause; shape [0,0,3] with rows 4 and
cols 6 for the solved-dimension clause). -/
theorem initFromArray_shape_inference_witness :
    inferShapeFromData [7] 4 6 = inferShapeFromData [7, 0] 4 6
    ∧ inferShapeFromData [0, 0, 3] 4 6 = Except.ok [4, 2, 3] := by
  constructor
  · exact initFromArray_shape_inference.2.1 7 4 6 (by decide)
  · have h := initFromArray_shape_inference.2.2.2.1 0 [] [3] 4 6
      (by decide) (by decide) (by decide)
    simpa using h

/-! Helper lemmas for peer-shape inference and the lazy-init machine. -/

theorem lazyInit_dims (s : ParamState) : (LazyInitParameters s).dims = s.dims := by
  unfold LazyInitParameters
  split
  · rfl
  · split
    · rfl
    · split <;> rfl

theorem all_zero_missing (ds : List Nat) (h : ∀ d ∈ ds, d = 0) :
    ds.length = 0 ∨ GetNumElements ds = 0 := by
  cases ds with
  | nil => left; rfl
  | cons x xs =>
      right
      have hx : x = 0 := h x (by simp)
      simp [GetNumElements, hx]

theorem fillZeroDims_length (ds os : List Nat) : (fillZeroDims ds os).length = ds.length := by
  induction ds generalizing os with
  | nil => rfl
  | cons d rest ih => cases os <;> simp [fillZeroDims, ih]

theorem fillZeroDims_getD (ds : List Nat) :
    ∀ os i, i < ds.length →
      (fillZeroDims ds os).getD i 0 = if ds.getD i 0 = 0 then os.getD i 0 else ds.getD i 0 := by
  induction ds with
  | nil => intro os i h; simp at h
  | cons d rest ih =>
      intro os i h
      cases os with
      | nil =>
          cases i with
          | zero =>
              by_cases hd : d = 0 <;> simp [fillZeroDims, hd]
          | succ i2 =>
              have h2 : i2 < rest.length := by simpa using h
              simpa [fillZeroDims] using ih [] i2 h2
      | cons o os2 =>
          cases i with
          | zero => by_cases hd : d = 0 <;> simp [fillZeroDims, hd]
          | succ i2 =>
              have h2 : i2 < rest.length := by simpa using h
              simpa [fillZeroDims] using ih os2 i2 h2

/-- A convenient concrete node state holding a given shape with a pending
uniform initialization. -/
def exampleState (ds : List Nat) : ParamState :=
  { dims := ds
    learningRateMultiplier := 1
    value := { rows := (matrixDimsOf ds).1
               cols := (matrixDimsOf ds).2
               content := BufferContent.invalid }
    initString := InitString.uniform
    randomSeed := 1
    initValueScale := 1
    initOnCPUOnly := false
    initValue := 0 }

/-- C2: InferInputDimsFrom is a no-op on a fully known shape; a shape with
no set dimension at all adopts the peer shape wholesale with no rank
check; a non-empty rank differing from the peer rank is silently skipped
with the shape unchanged; otherwise zero dimensions are replaced
positionally by the peer dimensions, nonzero ones are kept even when they
differ from the peer (shape [5,0] with peer [7,20] yields [5,20]), and
pending initialization is then attempted. -/
theorem inferInputDimsFrom_spec :
    (∀ s other, s.dims ≠ [] → GetNumElements s.dims ≠ 0 →
       InferInputDimsFrom s other = Except.ok s)
    ∧ (∀ s other, (∀ d ∈ s.dims, d = 0) → other ≠ [] → GetNumElements other ≠ 0 →
         s.initString ≠ InitString.empty →
         InferInputDimsFrom s other = Except.ok (LazyInitParameters (InitShape s other))
         ∧ (LazyInitParameters (InitShape s other)).dims = other)
    ∧ (∀ s other, GetNumElements s.dims = 0 → (∃ d ∈ s.dims, d ≠ 0) →
         other ≠ [] → GetNumElements other ≠ 0 → s.initString ≠ InitString.empty →
         s.dims.length ≠ other.length →
         InferInputDimsFrom s other = Except.ok s)
    ∧ (∀ s other, GetNumElements s.dims = 0 → (∃ d ∈ s.dims, d ≠ 0) →
         other ≠ [] → GetNumElements other ≠ 0 → s.initString ≠ InitString.empty →
         s.dims.length = other.length →
         InferInputDimsFrom s other
           = Except.ok (LazyInitParameters (InitShape s (fillZeroDims s.dims other)))
         ∧ (LazyInitParameters (InitShape s (fillZeroDims s.dims other))).dims
             = fillZeroDims s.dims other)
    ∧ (∀ ds os, (fillZeroDims ds os).length = ds.length)
    ∧ (∀ ds os i, i < ds.length →
         (fillZeroDims ds os).getD i 0
           = if ds.getD i 0 = 0 then os.getD i 0 else ds.getD i 0)
    ∧ (∃ s2, InferInputDimsFrom (exampleState [5, 0]) [7, 20] = Except.ok s2
         ∧ s2.dims = [5, 20]) := by
  refine ⟨?_, ?_, ?_, ?_, fillZeroDims_length, ?_, ?_⟩
  · intro s other h1 h2
    have hno : ¬ (s.dims.length = 0 ∨ GetNumElements s.dims = 0) := by
      rintro (h | h)
      · exact h1 (List.length_eq_zero.mp h)
      · exact h2 h
    simp only [InferInputDimsFrom]
    rw [if_pos hno]
  · intro s other hall hone hoe hpend
    have hm : s.dims.length = 0 ∨ GetNumElements s.dims = 0 := all_zero_missing s.dims hall
    have hpeer : ¬ (other.length = 0 ∨ GetNumElements other = 0) := by
      rintro (h | h)
      · exact hone (List.length_eq_zero.mp h)
      · exact hoe h
    have hany : s.dims.any (fun d => d ≠ 0) = false := by
      rw [List.any_eq_false]
      intro x hx
      simpa using hall x hx
    have h4 : ¬ (s.dims.any (fun d => d ≠ 0) = true) := by
      rw [hany]
      simp
    refine ⟨?_, ?_⟩
    · simp only [InferInputDimsFrom]
      rw [if_neg (not_not_intro hm), if_neg hpeer, if_neg hpend, if_pos h4]
    · rw [lazyInit_dims]
      rfl
  · intro s other hz hex hone hoe hpend hrank
    obtain ⟨d, hmem, hdne⟩ := hex
    have hm : s.dims.length = 0 ∨ GetNumElements s.dims = 0 := Or.inr hz
    have hpeer : ¬ (other.length = 0 ∨ GetNumElements other = 0) := by
      rintro (h | h)
      · exact hone (List.length_eq_zero.mp h)
      · exact hoe h
    have hany : s.dims.any (fun d => d ≠ 0) = true := by
      rw [List.any_eq_true]
      exact ⟨d, hmem, by simpa using hdne⟩
    have hlen : s.dims.length ≠ 0 := by
      intro h
      rw [List.length_eq_zero.mp h] at hmem
      simp at hmem
    simp only [InferInputDimsFrom]
    rw [if_neg (not_not_intro hm), if_neg hpeer, if_neg hpend,
      if_neg (not_not_intro hany), if_pos ⟨hlen, hrank⟩]
  · intro s other hz hex hone hoe hpend hrank
    obtain ⟨d, hmem, hdne⟩ := hex
    have hm : s.dims.length = 0 ∨ GetNumElements s.dims = 0 := Or.inr hz
    have hpeer : ¬ (other.length = 0 ∨ GetNumElements other = 0) := by
      rintro (h | h)
      · exact hone (List.length_eq_zero.mp h)
      · exact hoe h
    have hany : s.dims.any (fun d => d ≠ 0) = true := by
      rw [List.any_eq_true]
      exact ⟨d, hmem, by simpa using hdne⟩
    refine ⟨?_, ?_⟩
    · simp only [InferInputDimsFrom]
      rw [if_neg (not_not_intro hm), if_neg hpeer, if_neg hpend,
        if_neg (not_not_intro hany), if_neg (fun h => h.2 hrank)]
    · rw [lazyInit_dims]
      rfl
  · intro ds os i h
    exact fillZeroDims_getD ds os i h
  · exact ⟨LazyInitParameters (InitShape (exampleState [5, 0]) [5, 20]), rfl, rfl⟩

/-- Witness for C2: the hypotheses hold at concrete inputs: a node of
shape [0,0] with pending uniform init adopts peer shape [10,20], and a
node of shape [5,0] against peer [7,20] (equal rank) fills only the zero
position. -/
theorem inferInputDimsFrom_spec_witness :
    (InferInputDimsFrom (exampleState [0, 0]) [10, 20]
       = Except.ok (LazyInitParameters (InitShape (exampleState [0, 0]) [10, 20]))
     ∧ (LazyInitParameters (InitShape (exampleState [0, 0]) [10, 20])).dims = [10, 20])
    ∧ (InferInputDimsFrom (exampleState [5, 0]) [7, 20]
         = Except.ok (LazyInitParameters
             (InitShape (exampleState [5, 0]) (fillZeroDims [5, 0] [7, 20])))
       ∧ (LazyInitParameters
            (InitShape (exampleState [5, 0]) (fillZeroDims [5, 0] [7, 20]))).dims
           = fillZeroDims [5, 0] [7, 20]) := by
  constructor
  · exact inferInputDimsFrom_spec.2.1 (exampleState [0, 0]) [10, 20]
      (by decide) (by decide) (by decide) (by decide)
  · exact inferInputDimsFrom_spec.2.2.2.1 (exampleState [5, 0]) [7, 20]
      (by decide) ⟨5, by decide, by decide⟩ (by decide) (by decide) (by decide) (by decide)

/-! Helper lemmas for the deferred-initialization state machine. -/

/-- The buffer content that a pending strategy writes when it executes. -/
def strategyFill (s : ParamState) : BufferContent :=
  match s.initString with
  | InitString.empty => s.value.content
  | InitString.fromValue => BufferContent.filledValue s.initValue
  | InitString.uniform =>
      BufferContent.filledUniform s.randomSeed s.initValueScale s.initOnCPUOnly
  | InitString.gaussian =>
      BufferContent.filledGaussian s.randomSeed s.initValueScale s.initOnCPUOnly

theorem lazyInit_noop_empty (s : ParamState) (h : s.initString = InitString.empty) :
    LazyInitParameters s = s := by
  rw [LazyInitParameters, if_pos h]

theorem lazyInit_noop_incomplete (s : ParamState) (h : GetNumElements s.dims = 0) :
    LazyInitParameters s = s := by
  by_cases hp : s.initString = InitString.empty
  · exact lazyInit_noop_empty s hp
  · rw [LazyInitParameters, if_neg hp, if_pos h]

theorem lazyInit_executes (s : ParamState) (hp : s.initString ≠ InitString.empty)
    (hd : GetNumElements s.dims ≠ 0) :
    (LazyInitParameters s).initString = InitString.empty
    ∧ (LazyInitParameters s).value.content = strategyFill s := by
  rw [LazyInitParameters, if_neg hp, if_neg hd, strategyFill]
  rcases h : s.initString with _ | _ | _ | _
  · exact absurd h hp
  · exact ⟨rfl, rfl⟩
  · exact ⟨rfl, rfl⟩
  · exact ⟨rfl, rfl⟩

theorem lazyInit_idem (s : ParamState) :
    LazyInitParameters (LazyInitParameters s) = LazyInitParameters s := by
  by_cases hp : s.initString = InitString.empty
  · rw [lazyInit_noop_empty s hp, lazyInit_noop_empty s hp]
  · by_cases hd : GetNumElements s.dims = 0
    · rw [lazyInit_noop_incomplete s hd, lazyInit_noop_incomplete s hd]
    · exact lazyInit_noop_empty _ (lazyInit_executes s hp hd).1

theorem lrStep_ok (c : Config) (s0 : ParamState) (h : lrStep c = Except.ok s0) :
    s0.initString = InitString.empty ∧ s0.dims = c.shape := by
  rw [lrStep] at h
  rcases hlr : c.learningRateMultiplier with _ | v <;> rw [hlr] at h
  · by_cases hflag : c.hasDeprecatedGradientFlag
    · rw [if_pos hflag] at h; cases h
    · rw [if_neg hflag] at h
      obtain rfl : baseConstruct c = s0 := by simpa using h
      exact ⟨rfl, rfl⟩
  · obtain rfl : _ = s0 := by simpa using h
    exact ⟨rfl, rfl⟩

/-- For the deferred strategy requests (explicit uniform, gaussian or
zero tokens, or a scalar initValue resolving to fromValue) the branch
chain records a non-empty pending marker and leaves the configured shape
untouched. -/
theorem constructCore_deferred (c : Config) (k : Nat) (s1 : ParamState) (k2 : Nat)
    (htok : c.init = "uniform" ∨ c.init = "gaussian" ∨ c.init = "zero"
      ∨ (c.init = "" ∧ c.initFromFilePath = ""
          ∧ ∃ v, c.initValue = InitValueArg.scalar v))
    (hok : constructCore c k = Except.ok (s1, k2)) :
    s1.initString ≠ InitString.empty ∧ s1.dims = c.shape := by
  rw [constructCore] at hok
  rcases hlr : lrStep c with e | s0 <;> rw [hlr] at hok
  · simp at hok
  obtain ⟨hes, hds⟩ := lrStep_ok c s0 hlr
  rcases htok with h | h | h | ⟨h, hpath, v, hval⟩
  · have hres : resolveInitString c = Except.ok "uniform" := by
      rw [resolveInitString, if_pos (by rw [h]; decide), h]
    rw [hres] at hok
    simp at hok
    obtain ⟨hs, -⟩ := hok
    subst hs
    exact ⟨by simp, hds⟩
  · have hres : resolveInitString c = Except.ok "gaussian" := by
      rw [resolveInitString, if_pos (by rw [h]; decide), h]
    rw [hres] at hok
    simp at hok
    obtain ⟨hs, -⟩ := hok
    subst hs
    exact ⟨by simp, hds⟩
  · have hres : resolveInitString c = Except.ok "zero" := by
      rw [resolveInitString, if_pos (by rw [h]; decide), h]
    rw [hres] at hok
    simp at hok
    obtain ⟨hs, -⟩ := hok
    subst hs
    exact ⟨by simp, hds⟩
  · have hres : resolveInitString c = Except.ok "fromValue" := by
      rw [resolveInitString, if_neg (by rw [h]; decide), if_neg (by rw [hpath]; decide),
        hval]
    rw [hres, hval] at hok
    simp [getScalar] at hok
    obtain ⟨hs, -⟩ := hok
    subst hs
    exact ⟨by simp, hds⟩

/-- C3: for the deferred strategies the pending marker is non-empty after
construction exactly when the shape was not fully known at the request;
LazyInitParameters is a no-op unless a strategy is pending and the shape
is complete, and on success it fills the buffer per the strategy, clears
the marker, and a second attempt changes nothing (the strategy executes
exactly once). -/
theorem deferred_init_invariant :
    (∀ c k s k2,
        (c.init = "uniform" ∨ c.init = "gaussian" ∨ c.init = "zero"
          ∨ (c.init = "" ∧ c.initFromFilePath = ""
              ∧ ∃ v, c.initValue = InitValueArg.scalar v)) →
        constructFromConfig c k = Except.ok (s, k2) →
        (s.initString ≠ InitString.empty ↔ GetNumElements c.shape = 0))
    ∧ (∀ s, s.initString = InitString.empty → LazyInitParameters s = s)
    ∧ (∀ s, GetNumElements s.dims = 0 → LazyInitParameters s = s)
    ∧ (∀ s, s.initString ≠ InitString.empty → GetNumElements s.dims ≠ 0 →
         (LazyInitParameters s).initString = InitString.empty
         ∧ (LazyInitParameters s).value.content = strategyFill s)
    ∧ (∀ s, LazyInitParameters (LazyInitParameters s) = LazyInitParameters s) := by
  refine ⟨?_, lazyInit_noop_empty, lazyInit_noop_incomplete, lazyInit_executes, lazyInit_idem⟩
  intro c k s k2 htok hok
  rw [constructFromConfig] at hok
  rcases hcore : constructCore c k with e | ⟨s1, k3⟩ <;> rw [hcore] at hok
  · cases hok
  obtain ⟨rfl, -⟩ : LazyInitParameters s1 = s ∧ k3 = k2 := by simpa using hok
  obtain ⟨hpend, hdims⟩ := constructCore_deferred c k s1 k3 htok hcore
  by_cases hz : GetNumElements c.shape = 0
  · rw [lazyInit_noop_incomplete s1 (by rw [hdims]; exact hz)]
    simp [hpend, hz]
  · have := lazyInit_executes s1 hpend (by rw [hdims]; exact hz)
    simp [this.1, hz]

/-- A concrete baseline configuration used by the witnesses. -/
def baseConfig : Config :=
  { shape := [2, 3]
    learningRateMultiplier := none
    hasDeprecatedGradientFlag := false
    init := ""
    initFromFilePath := ""
    initValue := InitValueArg.str ""
    randomSeed := 7
    initValueScale := 1
    initOnCPUOnly := false
    value := 0
    initFromLiteral := ""
    fileData := none
    literalParse := none }

/-- A uniform-init request on a shape with an unknown dimension. -/
def cUniformOpen : Config := { baseConfig with init := "uniform", shape := [0, 3] }

/-- The node state produced by cUniformOpen: pending uniform init. -/
def sUniformOpen : ParamState :=
  { dims := [0, 3]
    learningRateMultiplier := 1
    value := { rows := 0, cols := 3, content := BufferContent.invalid }
    initString := InitString.uniform
    randomSeed := 7
    initValueScale := 1
    initOnCPUOnly := false
    initValue := 0 }

/-- Witness for C3: the constructor hypothesis and the execution
hypotheses hold at concrete inputs. -/
theorem deferred_init_invariant_witness :
    (sUniformOpen.initString ≠ InitString.empty ↔ GetNumElements cUniformOpen.shape = 0)
    ∧ ((LazyInitParameters (exampleState [2, 3])).initString = InitString.empty
        ∧ (LazyInitParameters (exampleState [2, 3])).value.content
            = strategyFill (exampleState [2, 3])) := by
  constructor
  · exact deferred_init_invariant.1 cUniformOpen 1 sUniformOpen 1 (Or.inl rfl) rfl
  · exact deferred_init_invariant.2.2.2.1 (exampleState [2, 3]) (by decide) (by decide)

/-- C9: Save on a parameter whose deferred initialization is still
pending fails with a LogicError; no stream items are produced. -/
theorem save_pending_logicError (s : ParamState)
    (h : s.initString ≠ InitString.empty) :
    Save s = Except.error (Err.logicError saveMsg) := by
  rw [Save, if_pos h]

/-- Witness for C9: a node with a pending uniform init cannot be saved. -/
theorem save_pending_logicError_witness :
    Save (exampleState [2, 3]) = Except.error (Err.logicError saveMsg) :=
  save_pending_logicError (exampleState [2, 3]) (by decide)

/-- C10: calling InferInputDimsFrom on a node with missing dimensions and
a usable peer shape fails with a LogicError when no deferred
initialization is pending. -/
theorem inferDims_requires_pending (s : ParamState) (other : List Nat)
    (hmiss : s.dims.length = 0 ∨ GetNumElements s.dims = 0)
    (hone : other ≠ []) (hoe : GetNumElements other ≠ 0)
    (hpend : s.initString = InitString.empty) :
    InferInputDimsFrom s other = Except.error (Err.logicError inferPendingMsg) := by
  have hpeer : ¬ (other.length = 0 ∨ GetNumElements other = 0) := by
    rintro (h | h)
    · exact hone (List.length_eq_zero.mp h)
    · exact hoe h
  simp only [InferInputDimsFrom]
  rw [if_neg (not_not_intro hmiss), if_neg hpeer, if_pos hpend]

/-- Witness for C10: node of shape [0,3] with no pending init, peer
shape [4,3]. -/
theorem inferDims_requires_pending_witness :
    InferInputDimsFrom { exampleState [0, 3] with initString := InitString.empty } [4, 3]
      = Except.error (Err.logicError inferPendingMsg) :=
  inferDims_requires_pending { exampleState [0, 3] with initString := InitString.empty }
    [4, 3] (Or.inr (by decide)) (by decide) (by decide) rfl

/-- Recognizer: did construction fail with an InvalidArgument error? -/
def isInvalidArg (r : Except Err (ParamState × Nat)) : Bool :=
  match r with
  | Except.error (Err.invalidArgument _) => true
  | _ => false

/-- Recognizer: did construction fail with an UnsupportedFeature error? -/
def isUnsupported (r : Except Err (ParamState × Nat)) : Bool :=
  match r with
  | Except.error (Err.unsupportedFeature _) => true
  | _ => false

/-- Counterexample to C8 as stated: an unrecognized init token is
rejected with a RuntimeError, not with InvalidArgument. -/
theorem unknown_token_not_invalidArgument :
    constructFromConfig { baseConfig with init := "bogus" } 1
      = Except.error (Err.runtimeError badInitMsg)
    ∧ isInvalidArg (constructFromConfig { baseConfig with init := "bogus" } 1) = false :=
  ⟨rfl, rfl⟩

/-- C8 amended: an explicitly named token outside the recognized set
makes construction fail with a RuntimeError (listing the documented
tokens), provided the deprecated gradient-flag names are absent so that
construction reaches the token dispatch. -/
theorem unknown_token_runtimeError (c : Config) (k : Nat)
    (hflag : c.hasDeprecatedGradientFlag = false)
    (h0 : c.init ≠ "") (h1 : c.init ≠ "uniform") (h2 : c.init ≠ "gaussian")
    (h3 : c.init ≠ "zero") (h4 : c.init ≠ "fromValue") (h5 : c.init ≠ "fromValueArray")
    (h6 : c.init ≠ "fromFile") (h7 : c.init ≠ "fixedValue") (h8 : c.init ≠ "fromLiteral") :
    constructFromConfig c k = Except.error (Err.runtimeError badInitMsg) := by
  have hres : resolveInitString c = Except.ok c.init := by
    rw [resolveInitString, if_pos h0]
  obtain ⟨s0, hlr⟩ : ∃ s0, lrStep c = Except.ok s0 := by
    rcases hm : c.learningRateMultiplier with _ | v
    · exact ⟨baseConstruct c, by rw [lrStep, hm, hflag]; rfl⟩
    · exact ⟨_, by rw [lrStep, hm]⟩
  rw [constructFromConfig, constructCore, hlr, hres]
  simp [h1, h2, h3, h4, h5, h6, h7, h8]

/-- Witness for C8 amended: the token bogus is rejected with the
RuntimeError message. -/
theorem unknown_token_runtimeError_witness :
    constructFromConfig { baseConfig with init := "bogus" } 1
      = Except.error (Err.runtimeError badInitMsg) :=
  unknown_token_runtimeError { baseConfig with init := "bogus" } 1 rfl
    (by decide) (by decide) (by decide) (by decide) (by decide) (by decide)
    (by decide) (by decide) (by decide)

/-- Counterexample to C4 as stated: an array initValue resolves to
fromValueArray, whose failure is an InvalidArgument, not an
UnsupportedFeature. -/
theorem fromValueArray_not_unsupportedFeature :
    constructFromConfig { baseConfig with initValue := InitValueArg.array } 1
      = Except.error (Err.invalidArgument valueArrayMsg)
    ∧ isUnsupported
        (constructFromConfig { baseConfig with initValue := InitValueArg.array } 1)
        = false :=
  ⟨rfl, rfl⟩

/-- C4 amended: with no named token, a non-empty file path selects
fromFile; otherwise a scalar initValue selects fromValue and an array
initValue selects fromValueArray, which fails with InvalidArgument
because it is unimplemented; otherwise a non-empty string initValue fails
with InvalidArgument; otherwise the strategy defaults to uniform. -/
theorem init_resolution_priority :
    (∀ c, c.init = "" → c.initFromFilePath ≠ "" →
       resolveInitString c = Except.ok "fromFile")
    ∧ (∀ c v, c.init = "" → c.initFromFilePath = "" →
         c.initValue = InitValueArg.scalar v →
         resolveInitString c = Except.ok "fromValue")
    ∧ (∀ c k, c.init = "" → c.initFromFilePath = "" →
         c.initValue = InitValueArg.array → c.hasDeprecatedGradientFlag = false →
         resolveInitString c = Except.ok "fromValueArray"
         ∧ constructFromConfig c k = Except.error (Err.invalidArgument valueArrayMsg))
    ∧ (∀ c k m, c.init = "" → c.initFromFilePath = "" →
         c.initValue = InitValueArg.str m → m ≠ "" → c.hasDeprecatedGradientFlag = false →
         constructFromConfig c k
           = Except.error (Err.invalidArgument valueNotEmptyStringMsg))
    ∧ (∀ c, c.init = "" → c.initFromFilePath = "" →
         c.initValue = InitValueArg.str "" →
         resolveInitString c = Except.ok "uniform") := by
  refine ⟨?_, ?_, ?_, ?_, ?_⟩
  · intro c h hp
    rw [resolveInitString, if_neg (not_not_intro h), if_pos hp]
  · intro c v h hp hv
    rw [resolveInitString, if_neg (not_not_intro h), if_neg (not_not_intro hp), hv]
  · intro c k h hp hv hflag
    have hres : resolveInitString c = Except.ok "fromValueArray" := by
      rw [resolveInitString, if_neg (not_not_intro h), if_neg (not_not_intro hp), hv]
    refine ⟨hres, ?_⟩
    obtain ⟨s0, hlr⟩ : ∃ s0, lrStep c = Except.ok s0 := by
      rcases hm : c.learningRateMultiplier with _ | v2
      · exact ⟨baseConstruct c, by rw [lrStep, hm, hflag]; rfl⟩
      · exact ⟨_, by rw [lrStep, hm]⟩
    rw [constructFromConfig, constructCore, hlr, hres]
    simp
  · intro c k m h hp hv hm hflag
    have hres : resolveInitString c
        = Except.error (Err.invalidArgument valueNotEmptyStringMsg) := by
      rw [resolveInitString, if_neg (not_not_intro h), if_neg (not_not_intro hp), hv]
      simp [hm]
    obtain ⟨s0, hlr⟩ : ∃ s0, lrStep c = Except.ok s0 := by
      rcases hm2 : c.learningRateMultiplier with _ | v2
      · exact ⟨baseConstruct c, by rw [lrStep, hm2, hflag]; rfl⟩
      · exact ⟨_, by rw [lrStep, hm2]⟩
    rw [constructFromConfig, constructCore, hlr, hres]
  · intro c h hp hv
    rw [resolveInitString, if_neg (not_not_intro h), if_neg (not_not_intro hp), hv]
    simp

/-- Witness for C4 amended: concrete configs exercise the file-path,
scalar, array, non-empty-string and default branches. -/
theorem init_resolution_priority_witness :
    resolveInitString { baseConfig with initFromFilePath := "w.txt" }
      = Except.ok "fromFile"
    ∧ resolveInitString { baseConfig with initValue := InitValueArg.scalar 3 }
        = Except.ok "fromValue"
    ∧ constructFromConfig { baseConfig with initValue := InitValueArg.array } 1
        = Except.error (Err.invalidArgument valueArrayMsg)
    ∧ constructFromConfig { baseConfig with initValue := InitValueArg.str "oops" } 1
        = Except.error (Err.invalidArgument valueNotEmptyStringMsg)
    ∧ resolveInitString baseConfig = Except.ok "uniform" := by
  refine ⟨?_, ?_, ?_, ?_, ?_⟩
  · exact init_resolution_priority.1 _ rfl (by decide)
  · exact init_resolution_priority.2.1 _ 3 rfl rfl rfl
  · exact (init_resolution_priority.2.2.1 _ 1 rfl rfl rfl rfl).2
  · exact init_resolution_priority.2.2.2.1 _ 1 "oops" rfl rfl rfl (by decide) rfl
  · exact init_resolution_priority.2.2.2.2 _ rfl rfl rfl

/-- The pending-initialization marker left by a successful construction. -/
def pendingAfter (r : Except Err (ParamState × Nat)) : Option InitString :=
  match r with
  | Except.ok (s, _) => some s.initString
  | Except.error _ => none

/-- Counterexample to C7 as stated: constructing with the deprecated
fixedValue token and the incomplete shape [0] leaves a pending fromValue
initialization, so fixedValue does not always execute immediately. -/
theorem fixedValue_remains_pending :
    pendingAfter
        (constructFromConfig
          { baseConfig with init := "fixedValue", shape := [0], value := 3 } 1)
      = some InitString.fromValue
    ∧ InitString.fromValue ≠ InitString.empty :=
  ⟨rfl, by decide⟩

/-- C7 amended: fromLiteral executes immediately (no pending init remains
after a successful construction, whatever the shape); fixedValue reads
the value config field but is mapped to the deferred fromValue strategy:
it executes immediately exactly when the shape is fully known, and
otherwise remains pending carrying the read value. -/
theorem legacy_tokens_behavior :
    (∀ c k s k2, c.init = "fromLiteral" →
        constructFromConfig c k = Except.ok (s, k2) → s.initString = InitString.empty)
    ∧ (∀ c k s k2, c.init = "fixedValue" →
        constructFromConfig c k = Except.ok (s, k2) →
        (s.initString = InitString.empty ↔ GetNumElements c.shape ≠ 0)
        ∧ (GetNumElements c.shape ≠ 0 →
            s.value.content = BufferContent.filledValue c.value)
        ∧ (GetNumElements c.shape = 0 →
            s.initString = InitString.fromValue ∧ s.initValue = c.value)) := by
  constructor
  · intro c k s k2 h hok
    rw [constructFromConfig] at hok
    rcases hcore : constructCore c k with e | ⟨s1, k3⟩ <;> rw [hcore] at hok
    · simp at hok
    obtain ⟨hs, -⟩ : LazyInitParameters s1 = s ∧ k3 = k2 := by simpa using hok
    have hs1 : s1.initString = InitString.empty := by
      rw [constructCore] at hcore
      rcases hlr : lrStep c with e | s0 <;> rw [hlr] at hcore
      · simp at hcore
      have hres : resolveInitString c = Except.ok "fromLiteral" := by
        rw [resolveInitString, if_pos (by rw [h]; decide), h]
      rw [hres] at hcore
      simp at hcore
      split at hcore
      · simp at hcore
      · split at hcore
        · simp at hcore
        · split at hcore
          · simp at hcore
          · obtain ⟨hs2, -⟩ : _ = s1 ∧ _ = k3 := by simpa using hcore
            rw [← hs2]
    rw [← hs, lazyInit_noop_empty s1 hs1]
    exact hs1
  · intro c k s k2 h hok
    rw [constructFromConfig] at hok
    rcases hcore : constructCore c k with e | ⟨s1, k3⟩ <;> rw [hcore] at hok
    · simp at hok
    obtain ⟨hs, -⟩ : LazyInitParameters s1 = s ∧ k3 = k2 := by simpa using hok
    rw [constructCore] at hcore
    rcases hlr : lrStep c with e | s0 <;> rw [hlr] at hcore
    · simp at hcore
    obtain ⟨hes, hds⟩ := lrStep_ok c s0 hlr
    have hres : resolveInitString c = Except.ok "fixedValue" := by
      rw [resolveInitString, if_pos (by rw [h]; decide), h]
    rw [hres] at hcore
    simp at hcore
    obtain ⟨hs1, -⟩ := hcore
    subst hs1
    by_cases hz : GetNumElements c.shape = 0
    · have hX : GetNumElements
          ({ s0 with initString := InitString.fromValue,
                     initValue := c.value } : ParamState).dims = 0 := by
        show GetNumElements s0.dims = 0
        rw [hds]
        exact hz
      rw [← hs, lazyInit_noop_incomplete _ hX]
      refine ⟨by simp [hz], fun hnz => absurd hz hnz, fun _ => ⟨rfl, rfl⟩⟩
    · have hexec := lazyInit_executes
        { s0 with initString := InitString.fromValue, initValue := c.value }
        (by simp) (show GetNumElements s0.dims ≠ 0 from hds ▸ hz)
      rw [← hs]
      refine ⟨by simp [hexec.1, hz], fun _ => ?_, fun hzz => absurd hzz hz⟩
      rw [hexec.2]
      rfl

/-- A fromLiteral construction over a fully known 2x2 shape. -/
def cLit : Config :=
  { baseConfig with init := "fromLiteral", shape := [2, 2]
                    initFromLiteral := "1 2; 3 4"
                    literalParse := some (2, 2, [1, 3, 2, 4]) }

/-- The node state produced by cLit. -/
def sLit : ParamState :=
  { dims := [2, 2]
    learningRateMultiplier := 1
    value := { rows := 2, cols := 2, content := BufferContent.filledData [1, 3, 2, 4] }
    initString := InitString.empty
    randomSeed := 0
    initValueScale := 1
    initOnCPUOnly := false
    initValue := 0 }

/-- A fixedValue construction over the fully known shape [2,3]. -/
def cFix : Config := { baseConfig with init := "fixedValue", value := 3 }

/-- The node state produced by cFix: executed immediately. -/
def sFix : ParamState :=
  { dims := [2, 3]
    learningRateMultiplier := 1
    value := { rows := 2, cols := 3, content := BufferContent.filledValue 3 }
    initString := InitString.empty
    randomSeed := 0
    initValueScale := 1
    initOnCPUOnly := false
    initValue := 3 }

/-- Witness for C7 amended: both legacy tokens exercised on concrete
configurations. -/
theorem legacy_tokens_behavior_witness :
    sLit.initString = InitString.empty
    ∧ (sFix.initString = InitString.empty ↔ GetNumElements cFix.shape ≠ 0) := by
  constructor
  · exact legacy_tokens_behavior.1 cLit 1 sLit 1 rfl rfl
  · exact (legacy_tokens_behavior.2 cFix 1 sFix 1 rfl rfl).1

/-! Helper lemmas for the persistence codec. -/

theorem finishLoad_ok (s : ParamState) (lr : Rat) (ds : List Nat) (r c : Nat)
    (buf : BufferContent) (h : r * c = GetNumElements ds) :
    finishLoad s lr ds r c buf
      = Except.ok { s with learningRateMultiplier := lr
                           dims := ds
                           value := { rows := r, cols := c, content := buf }
                           initString := InitString.empty } := by
  rw [finishLoad]
  simp only [VerifyDataSize]
  rw [if_pos h]

theorem finishLoad_clears (s : ParamState) (lr : Rat) (ds : List Nat) (r c : Nat)
    (buf : BufferContent) (s2 : ParamState)
    (h : finishLoad s lr ds r c buf = Except.ok s2) : s2.initString = InitString.empty := by
  rw [finishLoad] at h
  simp only [VerifyDataSize] at h
  by_cases hc : r * c = GetNumElements ds
  · rw [if_pos hc] at h
    obtain hs : _ = s2 := by simpa using h
    rw [← hs]
  · rw [if_neg hc] at h
    simp at h

theorem load_clears_pending (items : List StreamItem) (ver : Nat) (s s2 : ParamState)
    (h : Load items ver s = Except.ok s2) : s2.initString = InitString.empty := by
  rw [Load] at h
  rcases hd : decodeStream items ver with e | ⟨lr, ds, r, c, buf⟩ <;> rw [hd] at h
  · simp at h
  · exact finishLoad_clears _ _ _ _ _ _ _ h

/-- C5: for an Initialized parameter (no pending init) with a buffer
consistent with its shape, Save followed by Load reproduces the shape,
the learning-rate multiplier and the buffer contents, and every
successful Load unconditionally clears the pending-initialization
state. -/
theorem persistence_roundtrip :
    (∀ s s0 ver out, s.initString = InitString.empty →
        s.value.rows * s.value.cols = GetNumElements s.dims →
        ver ≥ CNTK_MODEL_VERSION_3 →
        Save s = Except.ok out →
        ∃ s2, Load out ver s0 = Except.ok s2
          ∧ s2.dims = s.dims
          ∧ s2.learningRateMultiplier = s.learningRateMultiplier
          ∧ s2.value = s.value
          ∧ s2.initString = InitString.empty)
    ∧ (∀ items ver s s2, Load items ver s = Except.ok s2 →
        s2.initString = InitString.empty) := by
  refine ⟨?_, load_clears_pending⟩
  intro s s0 ver out hinit hsz hver hsave
  rw [Save, if_neg (not_not_intro hinit)] at hsave
  obtain hout : _ = out := by simpa using hsave
  subst hout
  have hv : (ver ≥ CNTK_MODEL_VERSION_3) = True := eq_true hver
  have hd : decodeStream
      [StreamItem.baseFields, StreamItem.floatVal s.learningRateMultiplier,
       StreamItem.shapeVal s.dims,
       StreamItem.matrixVal s.value.rows s.value.cols s.value.content] ver
      = Except.ok (s.learningRateMultiplier, s.dims, s.value.rows, s.value.cols,
                   s.value.content) := by
    simp only [decodeStream, hv, if_true]
  refine ⟨{ s0 with learningRateMultiplier := s.learningRateMultiplier
                    dims := s.dims
                    value := { rows := s.value.rows, cols := s.value.cols
                               content := s.value.content }
                    initString := InitString.empty }, ?_, rfl, rfl, rfl, rfl⟩
  rw [Load, hd]
  exact finishLoad_ok s0 s.learningRateMultiplier s.dims s.value.rows s.value.cols
    s.value.content hsz

/-- An already-initialized node used by the persistence witnesses. -/
def sInit : ParamState :=
  { dims := [2, 3]
    learningRateMultiplier := 1
    value := { rows := 2, cols := 3, content := BufferContent.filledValue 5 }
    initString := InitString.empty
    randomSeed := 1
    initValueScale := 1
    initOnCPUOnly := false
    initValue := 5 }

/-- Witness for C5: saving sInit and reloading it over an unrelated node
state reproduces shape, multiplier and buffer. -/
theorem persistence_roundtrip_witness :
    ∃ s2, Load [StreamItem.baseFields, StreamItem.floatVal 1, StreamItem.shapeVal [2, 3],
          StreamItem.matrixVal 2 3 (BufferContent.filledValue 5)] 3 sUniformOpen
        = Except.ok s2
      ∧ s2.dims = sInit.dims
      ∧ s2.learningRateMultiplier = sInit.learningRateMultiplier
      ∧ s2.value = sInit.value
      ∧ s2.initString = InitString.empty :=
  persistence_roundtrip.1 sInit sUniformOpen 3 _ rfl (by decide) (by decide) rfl

/-- C6: a legacy stream (version below CNTK_MODEL_VERSION_3) yields a
boolean update flag mapped to multiplier 1 or 0, then row and column
counts; a nonzero row count makes the shape [rows, cols] directly, and a
zero row count reads a legacy-tagged shape to which the column count is
appended as a trailing dimension exactly when it exceeds 1. -/
theorem legacy_load_spec :
    (∀ ver upd rows cols r c buf s rest2, ver < CNTK_MODEL_VERSION_3 → rows ≠ 0 →
        r * c = GetNumElements [rows, cols] →
        Load (StreamItem.baseFields :: StreamItem.boolVal upd :: StreamItem.natVal rows ::
              StreamItem.natVal cols :: StreamItem.matrixVal r c buf :: rest2) ver s
          = Except.ok { s with learningRateMultiplier := if upd then 1 else 0
                               dims := [rows, cols]
                               value := { rows := r, cols := c, content := buf }
                               initString := InitString.empty })
    ∧ (∀ ver upd cols ds r c buf s rest2, ver < CNTK_MODEL_VERSION_3 → cols > 1 →
        r * c = GetNumElements (ds ++ [cols]) →
        Load (StreamItem.baseFields :: StreamItem.boolVal upd :: StreamItem.natVal 0 ::
              StreamItem.natVal cols :: StreamItem.legacyShapeVal ds ::
              StreamItem.matrixVal r c buf :: rest2) ver s
          = Except.ok { s with learningRateMultiplier := if upd then 1 else 0
                               dims := ds ++ [cols]
                               value := { rows := r, cols := c, content := buf }
                               initString := InitString.empty })
    ∧ (∀ ver upd cols ds r c buf s rest2, ver < CNTK_MODEL_VERSION_3 → ¬ cols > 1 →
        r * c = GetNumElements ds →
        Load (StreamItem.baseFields :: StreamItem.boolVal upd :: StreamItem.natVal 0 ::
              StreamItem.natVal cols :: StreamItem.legacyShapeVal ds ::
              StreamItem.matrixVal r c buf :: rest2) ver s
          = Except.ok { s with learningRateMultiplier := if upd then 1 else 0
                               dims := ds
                               value := { rows := r, cols := c, content := buf }
                               initString := InitString.empty }) := by
  refine ⟨?_, ?_, ?_⟩
  · intro ver upd rows cols r c buf s rest2 hver hrows hsz
    have hv : (ver ≥ CNTK_MODEL_VERSION_3) = False := eq_false (Nat.not_le.mpr hver)
    have hr : (rows ≠ 0) = True := eq_true hrows
    have hd : decodeStream
        (StreamItem.baseFields :: StreamItem.boolVal upd :: StreamItem.natVal rows ::
         StreamItem.natVal cols :: StreamItem.matrixVal r c buf :: rest2) ver
        = Except.ok (if upd then 1 else 0, [rows, cols], r, c, buf) := by
      simp only [decodeStream, hv, hr, if_true, if_false]
    rw [Load, hd]
    exact finishLoad_ok s _ _ r c buf hsz
  · intro ver upd cols ds r c buf s rest2 hver hcols hsz
    have hv : (ver ≥ CNTK_MODEL_VERSION_3) = False := eq_false (Nat.not_le.mpr hver)
    have hc : (cols > 1) = True := eq_true hcols
    have hd : decodeStream
        (StreamItem.baseFields :: StreamItem.boolVal upd :: StreamItem.natVal 0 ::
         StreamItem.natVal cols :: StreamItem.legacyShapeVal ds ::
         StreamItem.matrixVal r c buf :: rest2) ver
        = Except.ok (if upd then 1 else 0, ds ++ [cols], r, c, buf) := by
      simp only [decodeStream, hv, hc, if_true, if_false]
      simp
    rw [Load, hd]
    exact finishLoad_ok s _ _ r c buf hsz
  · intro ver upd cols ds r c buf s rest2 hver hcols hsz
    have hv : (ver ≥ CNTK_MODEL_VERSION_3) = False := eq_false (Nat.not_le.mpr hver)
    have hc : (cols > 1) = False := eq_false hcols
    have hd : decodeStream
        (StreamItem.baseFields :: StreamItem.boolVal upd :: StreamItem.natVal 0 ::
         StreamItem.natVal cols :: StreamItem.legacyShapeVal ds ::
         StreamItem.matrixVal r c buf :: rest2) ver
        = Except.ok (if upd then 1 else 0, ds, r, c, buf) := by
      simp only [decodeStream, hv, hc, if_true, if_false]
      simp
    rw [Load, hd]
    exact finishLoad_ok s _ _ r c buf hsz

/-- Witness for C6: a version-1 stream with direct shape [4,6], and a
version-1 stream with a legacy-tagged shape [3] and trailing column
count 5 yielding shape [3,5]. -/
theorem legacy_load_spec_witness :
    Load [StreamItem.baseFields, StreamItem.boolVal true, StreamItem.natVal 4,
          StreamItem.natVal 6, StreamItem.matrixVal 4 6 (BufferContent.filledValue 2)]
        1 sUniformOpen
      = Except.ok { sUniformOpen with
                      learningRateMultiplier := if true then 1 else 0
                      dims := [4, 6]
                      value := { rows := 4, cols := 6
                                 content := BufferContent.filledValue 2 }
                      initString := InitString.empty }
    ∧ Load [StreamItem.baseFields, StreamItem.boolVal true, StreamItem.natVal 0,
            StreamItem.natVal 5, StreamItem.legacyShapeVal [3],
            StreamItem.matrixVal 3 5 (BufferContent.filledValue 2)] 1 sUniformOpen
        = Except.ok { sUniformOpen with
                        learningRateMultiplier := if true then 1 else 0
                        dims := [3] ++ [5]
                        value := { rows := 3, cols := 5
                                   content := BufferContent.filledValue 2 }
                        initString := InitString.empty } := by
  constructor
  · exact legacy_load_spec.1 1 true 4 6 4 6 (BufferContent.filledValue 2) sUniformOpen []
      (by decide) (by decide) (by decide)
  · exact legacy_load_spec.2.1 1 true 5 [3] 3 5 (BufferContent.filledValue 2)
      sUniformOpen [] (by decide) (by decide) (by decide)

end CNTK
